import Mathlib

/-
Verification of the waveform-visualizer core (src/protocol.py, src/J1939.py;
src/protocol_visualizer.py carries a line-identical copy of Symbol, Field,
Frame and Protocol.generate_waveform).

Modelling conventions:
- Python floats are modelled as rationals (every literal involved — 3.5, 2.5,
  1.5, 1/250000 — is exact, and the claims are exact-arithmetic identities).
- Fallible Python code (exceptions from `int(s, 16)`, division by zero,
  out-of-range indexing) is modelled with `Option`: `none` is "the call
  raises".
- `int(s, 16)` is modelled in full for ASCII input, including the Python
  leniencies: surrounding whitespace, an optional sign, an optional 0x/0X
  prefix, and single underscores between digits (one also allowed directly
  after the prefix). The CPython acceptance of non-ASCII input (Unicode
  whitespace and Unicode decimal digits are translated to ASCII before
  scanning) is outside the model; the one claim sensitive to acceptance
  (C5) therefore carries an all-ASCII hypothesis on the data.
- The Python slice `data[a : a + n]` with `a, n ≥ 0` is `(data.drop a).take n`.
-/

set_option autoImplicit false
set_option linter.unusedVariables false

namespace WaveformVis

/-- A single symbol of the protocol: logic level and duration
(src/protocol.py lines 6-10; the dataclass types both as float). -/
structure Symbol where
  logic_level : ℚ
  duration : ℚ
  deriving DecidableEq, Repr

/-- A field of the protocol frame (src/protocol.py lines 12-17):
name, bit length and the symbol storage. -/
structure Field where
  name : String
  length : ℕ
  symbols : List Symbol
  deriving DecidableEq, Repr

/-- Modelled from the spec: Field construction (spec §4.1) allocates exactly
`length` fresh Symbols, each with logic level 0 and duration 0. The
constructor in the source (src/protocol.py line 19) cannot run: its default
argument
`List[Symbol](length)` is evaluated at class-definition time where `length`
is unbound (NameError; `typing.List` also cannot be instantiated), and the
overriding `__init__` never assigns `self.length`. The working construction
is therefore taken from the contract in the spec; the parsing and waveform
algorithms below are translated from the source. -/
def Field.make (name : String) (length : ℕ) : Field :=
  ⟨name, length, List.replicate length ⟨0, 0⟩⟩

/-- Is `c` a hexadecimal digit (0-9, a-f, A-F)? -/
def isHexDig (c : Char) : Bool :=
  ('0' ≤ c && c ≤ '9') || ('a' ≤ c && c ≤ 'f') || ('A' ≤ c && c ≤ 'F')

/-- Numeric value of a hexadecimal digit (junk value 0 on non-digits). -/
def hexVal (c : Char) : ℕ :=
  if '0' ≤ c && c ≤ '9' then c.toNat - '0'.toNat
  else if 'a' ≤ c && c ≤ 'f' then c.toNat - 'a'.toNat + 10
  else if 'A' ≤ c && c ≤ 'F' then c.toNat - 'A'.toNat + 10
  else 0

/-- The whitespace characters `int()` strips on ASCII input: 0x09-0x0D and
0x20 (for a pure-ASCII str CPython skips its Unicode-to-ASCII transform and
the byte scanner strips exactly the C-locale whitespace set). -/
def isPySpace (c : Char) : Bool :=
  (9 ≤ c.toNat && c.toNat ≤ 13) || c.toNat == 32

/-- Leading and trailing whitespace, stripped by `int()`. -/
def stripPySpaces (s : List Char) : List Char :=
  ((s.dropWhile isPySpace).reverse.dropWhile isPySpace).reverse

/-- The optional sign accepted by `int()`: the sign as an integer factor,
and the rest of the string. -/
def readSign : List Char → Int × List Char
  | '+' :: rest => (1, rest)
  | '-' :: rest => (-1, rest)
  | s => (1, s)

/-- The optional `0x`/`0X` prefix accepted by `int(s, 16)`: whether a
prefix was present, and the rest of the string. -/
def stripHexPfx : List Char → Bool × List Char
  | '0' :: 'x' :: rest => (true, rest)
  | '0' :: 'X' :: rest => (true, rest)
  | s => (false, s)

/-- The tail of a digit run: hexadecimal digits, with single underscores
allowed between digits only (never trailing, never doubled). -/
def hexTail : List Char → Bool
  | [] => true
  | '_' :: c :: rest => isHexDig c && hexTail rest
  | ['_'] => false
  | c :: rest => isHexDig c && hexTail rest

/-- A nonempty digit run: a hexadecimal digit followed by a `hexTail`. -/
def hexRun : List Char → Bool
  | c :: rest => isHexDig c && hexTail rest
  | [] => false

/-- The digit part accepted by `int(s, 16)` after sign and prefix: a
nonempty digit run; one underscore directly after a `0x`/`0X` prefix is
also allowed (`int("0x_f", 16)` succeeds, `int("_f", 16)` does not). -/
def pyDigitsOK (hadPfx : Bool) : List Char → Bool
  | '_' :: rest => hadPfx && hexRun rest
  | s => hexRun s

/-- Does `int(s, 16)` accept `s`? Faithful for ASCII input: optional
surrounding whitespace, an optional sign, an optional `0x`/`0X` prefix,
then a nonempty run of hexadecimal digits with single underscores between
digits (one also allowed directly after the prefix). -/
def pyIntHexValid (s : List Char) : Bool :=
  pyDigitsOK (stripHexPfx (readSign (stripPySpaces s)).2).1
    (stripHexPfx (readSign (stripPySpaces s)).2).2

/-- The value `int(s, 16)` returns on an accepted string: the base-16
value of the digits (underscores discarded), under the sign. -/
def pyIntHexVal (s : List Char) : Int :=
  (readSign (stripPySpaces s)).1 *
    ((((stripHexPfx (readSign (stripPySpaces s)).2).2.filter
        (fun c => c != '_')).foldl (fun a c => 16 * a + hexVal c) 0 : ℕ) : Int)

/-- Python `int(s, 16)`: raises ValueError — here `none` — unless `s` is
accepted per `pyIntHexValid`; otherwise the (possibly negative) value. -/
def pyIntHex (s : List Char) : Option Int :=
  if pyIntHexValid s then some (pyIntHexVal s) else none

/-- The number of characters the field parser extracts
(src/protocol.py lines 26-29): `num_chars = self.length // 4`,
bumped to 1 when it is 0. Note: floor division, not ceiling. -/
def Field.num_chars (f : Field) : ℕ :=
  if f.length / 4 = 0 then 1 else f.length / 4

/-- The bit-assignment loop of `Field.parse_user_data`
(src/protocol.py lines 33-35): for `i` in `range(length)`,
`symbols[length-1-i].logic_level = (data_int >> i) & 1`; equivalently the
symbol at index `j < length` receives bit `length-1-j` of `data_int`.
Symbols at index ≥ `length` are untouched. The Python right shift on a
possibly negative int is the floor division `Int.fdiv` by `2 ^ i`, and
`& 1` is the nonnegative remainder `Int.emod` by 2 (the bit of the
two-s-complement expansion); on nonnegative values this is the plain
`(data_int >>> i) % 2`. -/
def setBitsAux (data_int : Int) (len : ℕ) : List Symbol → ℕ → List Symbol
  | [], _ => []
  | s :: rest, j =>
      (if j < len then
        { s with logic_level :=
            (((data_int.fdiv ((2 ^ (len - 1 - j) : ℕ) : Int)).emod 2 : ℤ) : ℚ) }
      else s) :: setBitsAux data_int len rest (j + 1)

/-- `Field.parse_user_data(data, frame_start)` (src/protocol.py lines 23-35):
slices `data[frame_start : frame_start + num_chars]` — the bit offset
`frame_start` itself indexes characters; the computed
`start_index = frame_start // 4` on line 25 is never used — parses the slice
as base 16, and writes the bits into `symbols` MSB-first. The final guard
models the IndexError raised when `symbols` is shorter than `length`.
`self.length` is read from the dataclass field (the broken source
constructor never assigns it — see `Field.make`). -/
def Field.parse_user_data (f : Field) (data : List Char) (frame_start : ℕ) :
    Option Field :=
  match pyIntHex ((data.drop frame_start).take f.num_chars) with
  | none => none
  | some data_int =>
      if f.length ≤ f.symbols.length then
        some { f with symbols := setBitsAux data_int f.length f.symbols 0 }
      else none

/-- A complete protocol frame (src/protocol.py lines 37-40). -/
structure Frame where
  fields : List Field
  deriving DecidableEq, Repr

/-- `Frame.get_all_symbols` (src/protocol.py lines 42-47): the concatenation
of the symbols of each field, in field order. -/
def Frame.get_all_symbols (fr : Frame) : List Symbol :=
  (fr.fields.map Field.symbols).flatten

/-- Total bit count of a frame: the sum of its field lengths (spec §3;
the source keeps no such attribute but the claims quantify with it). -/
def Frame.total_bits (fr : Frame) : ℕ :=
  (fr.fields.map Field.length).sum

/-- The field-walking loop of `Frame.parse_user_data`
(src/protocol.py lines 49-55): parse each field at the running bit offset,
then advance the offset by the length of the field; the first failing field
aborts the walk. -/
def parseFields (data : List Char) : List Field → ℕ → Option (List Field)
  | [], _ => some []
  | f :: rest, frame_start =>
      match f.parse_user_data data frame_start with
      | none => none
      | some f2 =>
          match parseFields data rest (frame_start + f.length) with
          | none => none
          | some rest2 => some (f2 :: rest2)

/-- `Frame.parse_user_data(data)` (src/protocol.py lines 49-55). -/
def Frame.parse_user_data (fr : Frame) (data : List Char) : Option Frame :=
  match parseFields data fr.fields 0 with
  | none => none
  | some fs => some ⟨fs⟩

/-- Protocol state (src/protocol.py lines 62-68). `Protocol.__init__` stores
`frequency`, `period = 1.0 / frequency`, the two logic voltages and the
frame; see `Protocol.make` for the constructor. -/
structure Protocol where
  frequency : ℚ
  period : ℚ
  high_logic_voltage : ℚ
  low_logic_voltage : ℚ
  data_frame : Frame
  deriving DecidableEq, Repr

/-- `Protocol.__init__` (src/protocol.py lines 63-68). The constructor
performs no validation; the only failure is the Python ZeroDivisionError from
`1.0 / frequency` when `frequency == 0`, modelled as `none`. -/
def Protocol.make (frequency high_logic_voltage low_logic_voltage : ℚ)
    (data_frame : Frame) : Option Protocol :=
  if frequency = 0 then none
  else some ⟨frequency, 1 / frequency, high_logic_voltage,
             low_logic_voltage, data_frame⟩

/-- `Protocol.logic_to_voltage` (src/protocol.py lines 70-75). -/
def Protocol.logic_to_voltage (p : Protocol) (logic_level : ℚ) : ℚ :=
  if logic_level = 1 then p.high_logic_voltage else p.low_logic_voltage

/-- The generated waveform (src/protocol.py lines 57-60). -/
structure Waveform where
  time_points : List ℚ
  voltage_points : List ℚ
  deriving DecidableEq, Repr

/-- The accumulation loop of `generate_waveform`
(src/protocol.py lines 86-93): walk the symbols, appending the running time
and the voltage of the symbol, then advance time by its duration. -/
def waveLoop (p : Protocol) : List Symbol → ℚ → List ℚ × List ℚ
  | [], _ => ([], [])
  | s :: rest, current_time =>
      let tail := waveLoop p rest (current_time + s.duration)
      (current_time :: tail.1, p.logic_to_voltage s.logic_level :: tail.2)

/-- `Protocol.generate_waveform(data)` (src/protocol.py lines 77-95): reads
the symbols already stored in `data_frame` and assembles the time/voltage
lists. The `data` argument appears in the source signature but is never
used by the body — the frame is neither re-parsed nor are durations set. -/
def Protocol.generate_waveform (p : Protocol) (data : List Char) : Waveform :=
  let symbols := p.data_frame.get_all_symbols
  let arrays := waveLoop p symbols 0
  ⟨arrays.1, arrays.2⟩

/-- `J1939Sof` (src/J1939.py lines 4-6). -/
def J1939Sof : Field := Field.make "SOF" 1

/-- `J1939Id` (src/J1939.py lines 8-11): 29 bits when extended, else 11. -/
def J1939Id (is_extended : Bool) : Field :=
  Field.make "ID" (if is_extended then 29 else 11)

/-- `J1939Control` (src/J1939.py lines 13-15). -/
def J1939Control : Field := Field.make "Control" 3

/-- `J1939Data` (src/J1939.py lines 17-19). -/
def J1939Data : Field := Field.make "Data" 8

/-- `J1939Crc` (src/J1939.py lines 21-23). -/
def J1939Crc : Field := Field.make "CRC" 15

/-- `J1939Ack` (src/J1939.py lines 24-26). -/
def J1939Ack : Field := Field.make "ACK" 2

/-- `J1939Eof` (src/J1939.py lines 27-29). -/
def J1939Eof : Field := Field.make "EOF" 7

/-- `J1939Frame` (src/J1939.py lines 30-33): SOF, standard (non-extended)
ID, Control, Data, CRC, ACK, EOF. -/
def J1939Frame : Frame :=
  ⟨[J1939Sof, J1939Id false, J1939Control, J1939Data, J1939Crc,
    J1939Ack, J1939Eof]⟩

/-- The probe argument of `J1939.__init__`. The first three constructors are
the members of `J1939ProbeConfiguration` (src/J1939.py lines 35-38);
`other` stands for any value outside the enumerated set, which fails every
equality test in the if/elif chain of the constructor and reaches the
`raise ValueError` branch. -/
inductive J1939ProbeInput where
  | CAN_H
  | CAN_L
  | DIFFERENTIAL
  | other
  deriving DecidableEq, Repr

/-- `J1939.__init__(probe_configuration)` (src/J1939.py lines 42-66):
frequency fixed at 250000 Hz; voltage pair selected by the probe
configuration (the DIFFERENTIAL pair is computed by the source as
3.5 − 2.5 and 2.5 − 1.5); any other value raises ValueError (`none`). -/
def J1939.make (probe_configuration : J1939ProbeInput) : Option Protocol :=
  let J1939_FREQUENCY : ℚ := 250000
  let canHHigh : ℚ := 3.5
  let canHLow : ℚ := 2.5
  let canLHigh : ℚ := 2.5
  let canLLow : ℚ := 1.5
  let diffHigh : ℚ := canHHigh - canLHigh
  let diffLow : ℚ := canHLow - canLLow
  match probe_configuration with
  | .CAN_H => Protocol.make J1939_FREQUENCY canHHigh canHLow J1939Frame
  | .CAN_L => Protocol.make J1939_FREQUENCY canLHigh canLLow J1939Frame
  | .DIFFERENTIAL => Protocol.make J1939_FREQUENCY diffHigh diffLow J1939Frame
  | .other => none

/-- The J1939 protocol instance for probe CAN_H, extracted from
`J1939.make` (the construction succeeds — see `J1939_make_CAN_H`). -/
def j1939CanH : Protocol :=
  (J1939.make J1939ProbeInput.CAN_H).getD ⟨1, 1, 0, 0, ⟨[]⟩⟩

/-- The integer read back from the symbols of a field, as claim C3 and
spec §8 prescribe: bit `i` of the result is `symbols[length-1-i].logic_level`
(out-of-range reads yield the zero symbol; they never occur on fields with
`length` symbols). -/
def Field.reconstruct (f : Field) : ℕ :=
  (List.range f.length).foldl
    (fun acc i =>
      acc +
        (if (f.symbols.getD (f.length - 1 - i) ⟨0, 0⟩).logic_level = 1 then
          2 ^ i
        else 0)) 0

theorem J1939_make_CAN_H :
    J1939.make J1939ProbeInput.CAN_H = some j1939CanH := rfl

/-- The bit-assignment loop never changes the number of symbols. -/
theorem setBitsAux_length (v : Int) (len : ℕ) (l : List Symbol) (j : ℕ) :
    (setBitsAux v len l j).length = l.length := by
  induction l generalizing j with
  | nil => rfl
  | cons s rest ih => simp [setBitsAux, ih]

/-- The bit-assignment loop writes only logic levels: the durations of the
symbol list are unchanged. -/
theorem setBitsAux_map_duration (v : Int) (len : ℕ) (l : List Symbol)
    (j : ℕ) :
    (setBitsAux v len l j).map Symbol.duration = l.map Symbol.duration := by
  induction l generalizing j with
  | nil => rfl
  | cons s rest ih =>
      simp only [setBitsAux, List.map_cons, ih]
      by_cases h : j < len <;> simp [h]

/-- A successful field parse leaves every duration unchanged
(spec §4.1: the parser does not touch `duration`). -/
theorem field_parse_map_duration {f f' : Field} {data : List Char}
    {off : ℕ} (h : f.parse_user_data data off = some f') :
    f'.symbols.map Symbol.duration = f.symbols.map Symbol.duration := by
  unfold Field.parse_user_data at h
  split at h
  · cases h
  · split at h
    · cases h
      exact setBitsAux_map_duration _ f.length f.symbols 0
    · cases h

/-- A successful field-list parse leaves every duration unchanged. -/
theorem parseFields_map_duration {data : List Char} {fs fs' : List Field}
    {off : ℕ} (h : parseFields data fs off = some fs') :
    fs'.map (fun f => f.symbols.map Symbol.duration) =
      fs.map (fun f => f.symbols.map Symbol.duration) := by
  induction fs generalizing fs' off with
  | nil => unfold parseFields at h; cases h; rfl
  | cons f rest ih =>
      unfold parseFields at h
      cases hf : f.parse_user_data data off with
      | none => rw [hf] at h; cases h
      | some f2 =>
          rw [hf] at h
          cases hr : parseFields data rest (off + f.length) with
          | none => rw [hr] at h; cases h
          | some rest2 =>
              rw [hr] at h
              cases h
              simp [field_parse_map_duration hf, ih hr]

/-- A successful frame parse leaves the durations of the flattened symbol
sequence unchanged. -/
theorem frame_parse_map_duration {fr fr' : Frame} {data : List Char}
    (h : fr.parse_user_data data = some fr') :
    fr'.get_all_symbols.map Symbol.duration =
      fr.get_all_symbols.map Symbol.duration := by
  unfold Frame.parse_user_data at h
  cases hp : parseFields data fr.fields 0 with
  | none => rw [hp] at h; cases h
  | some fs =>
      rw [hp] at h
      cases h
      have hmap := parseFields_map_duration hp
      simp only [Frame.get_all_symbols, List.map_flatten, List.map_map]
      have : (List.map Symbol.duration ∘ Field.symbols) =
          fun f => f.symbols.map Symbol.duration := rfl
      rw [this, hmap]

/-- When every duration is zero, the accumulated time never advances: the
time list of the waveform loop is the start time repeated. -/
theorem waveLoop_fst_of_durations_zero (p : Protocol) (syms : List Symbol)
    (t : ℚ) (n : ℕ) (h : syms.map Symbol.duration = List.replicate n 0) :
    (waveLoop p syms t).1 = List.replicate n t := by
  induction syms generalizing t n with
  | nil =>
      cases n with
      | zero => rfl
      | succ m => simp [List.replicate_succ] at h
  | cons s rest ih =>
      cases n with
      | zero => simp at h
      | succ m =>
          rw [List.replicate_succ] at h
          simp only [List.map_cons, List.cons.injEq] at h
          have htail : (waveLoop p rest (t + s.duration)).1
              = List.replicate m t := by
            rw [h.1, add_zero]
            exact ih t m h.2
          show t :: (waveLoop p rest (t + s.duration)).1
              = List.replicate (m + 1) t
          rw [htail, List.replicate_succ]

/-- `pyIntHex` fails exactly when the acceptance scan rejects the string. -/
theorem pyIntHex_eq_none (s : List Char) :
    pyIntHex s = none ↔ pyIntHexValid s = false := by
  unfold pyIntHex
  by_cases h : pyIntHexValid s <;> simp [h]

/-- C1: the claim says `generate_waveform(data)` first re-parses the frame
from `data` and assigns `duration = period` to every symbol, so that the
logic levels and durations of the output are determined by `data`. The code
does neither: on the CAN_H J1939 protocol, the all-ones payload
"ffffffffffff" produces 47 voltage points that are all the LOW voltage 2.5
(and high ≠ low, so under the claim the SOF bit alone would have forced a
3.5 somewhere), and the output equals the output for the all-zeros payload. -/
theorem C1_generate_waveform_ignores_data :
    j1939CanH.generate_waveform "ffffffffffff".toList =
        j1939CanH.generate_waveform "000000000000".toList ∧
    (j1939CanH.generate_waveform "ffffffffffff".toList).voltage_points =
        List.replicate 47 (2.5 : ℚ) ∧
    j1939CanH.high_logic_voltage ≠ j1939CanH.low_logic_voltage := by
  refine ⟨rfl, rfl, ?_⟩
  norm_num [j1939CanH, J1939.make, Protocol.make]

/-- C2: the claim says the field parser extracts
`data[char_offset : char_offset + num_chars]` with
`char_offset = bit_offset / 4` and `num_chars = max(1, ceil(length/4))`.
The code instead slices from the raw bit offset (`data[frame_start : ...]`,
the computed `start_index` being unused) with `num_chars = max(1,
length // 4)` (floor). Evaluated at a length-8 field, `bit_offset = 4`,
`data = "abc"`: the claim extracts `data[1:3] = "bc"`, but the code slices
`data[4:6] = ""` and raises; and the length-15 CRC field uses 3 characters,
not `ceil(15/4) = 4`. -/
theorem C2_char_offset_and_width_diverge :
    (Field.make "Data" 8).parse_user_data "abc".toList 4 = none ∧
    (Field.make "CRC" 15).num_chars = 3 := by
  constructor
  · decide
  · decide

/-- C3: the round-trip law fails on the code. For a field of length 5 and
`v = 1`, the nibble-padded hex representation is "01"; the parser reads only
`max(1, 5 // 4) = 1` character — the "0" — so every parsed logic level is 0
and the reconstruction (bit `i` = `symbols[5-1-i].logic_level`) returns 0,
not 1. -/
theorem C3_roundtrip_fails_at_length5 :
    ((Field.make "F" 5).parse_user_data "01".toList 0).map Field.reconstruct
        = some 0 ∧
    ((Field.make "F" 5).parse_user_data "01".toList 0).map Field.reconstruct
        ≠ some 1 := by
  constructor
  · decide
  · decide

/-- C4: the claim says the waveform of a successfully parsed frame has
`time_points[k+1] - time_points[k] = period` for every k. The code never
assigns `duration = period` (durations stay at their construction value 0),
so even for a frame successfully parsed from a 41-character hex string —
the shortest length the off-by-4 slicing accepts — all 47 time points equal
0 while the period is nonzero. -/
theorem C4_parsed_frame_has_flat_time_points :
    ∃ fr, J1939Frame.parse_user_data (List.replicate 41 'f') = some fr ∧
      (({ j1939CanH with data_frame := fr }).generate_waveform
          (List.replicate 41 'f')).time_points = List.replicate 47 (0 : ℚ) ∧
      j1939CanH.period ≠ 0 := by
  have h : (J1939Frame.parse_user_data (List.replicate 41 'f')).isSome = true := by
    decide
  obtain ⟨fr, hfr⟩ := Option.isSome_iff_exists.mp h
  refine ⟨fr, hfr, ?_, ?_⟩
  · have hd : fr.get_all_symbols.map Symbol.duration = List.replicate 47 0 := by
      rw [frame_parse_map_duration hfr]
      decide
    exact waveLoop_fst_of_durations_zero _ fr.get_all_symbols 0 47 hd
  · norm_num [j1939CanH, J1939.make, Protocol.make]

/-- C5 counterexample: the claim says parsing fails with `ParseError` when
the extracted substring is shorter than `num_chars`. For a length-8 field
(`num_chars = 2`) and the one-character input "f", the slice "f" is shorter
than 2, yet the parse succeeds — `int("f", 16) = 15` — and the symbols
reconstruct to 15. -/
theorem C5_short_substring_still_parses :
    ((Field.make "Data" 8).parse_user_data "f".toList 0).map Field.reconstruct
      = some 15 := by
  decide

/-- C5 amended: for all-ASCII data and nonnegative bit offsets, field hex
parsing fails exactly when the extracted substring
`data[frame_start : frame_start + num_chars]` (with
`num_chars = max(1, length // 4)`, the bit offset itself indexing
characters) is not a string `int(s, 16)` accepts: optional surrounding
whitespace, an optional sign, an optional `0x`/`0X` prefix, then a
nonempty run of hexadecimal digits with single underscores between digits
(one also allowed directly after the prefix). In particular an accepted
substring shorter than `num_chars` parses successfully. The ASCII
hypothesis scopes the statement to where the embedded `int(s, 16)` is
exact; CPython additionally translates Unicode whitespace and decimal
digits, which no ASCII string triggers. -/
theorem C5_amended_raises_iff (name : String) (L : ℕ) (data : List Char)
    (off : ℕ) (hascii : ∀ c ∈ data, c.toNat < 128) :
    (Field.make name L).parse_user_data data off = none ↔
      pyIntHexValid ((data.drop off).take (Field.make name L).num_chars)
        = false := by
  rw [← pyIntHex_eq_none]
  unfold Field.parse_user_data
  cases h : pyIntHex ((data.drop off).take (Field.make name L).num_chars) with
  | none => simp
  | some v => simp [Field.make]

/-- Witness for the amended C5 at a concrete input: the data "0xf" is
ASCII, and for a length-12 field at offset 0 (`num_chars = 3`, the slice
being the whole of "0xf") the parse does not fail — `int("0xf", 16)`
returns 15 although x is not a hexadecimal digit — matching the
acceptance scan. -/
theorem C5_amended_raises_iff_witness :
    (∀ c ∈ "0xf".toList, c.toNat < 128) ∧
    ((Field.make "ID" 12).parse_user_data "0xf".toList 0 = none ↔
      pyIntHexValid (("0xf".toList.drop 0).take
        (Field.make "ID" 12).num_chars) = false) :=
  ⟨by decide, C5_amended_raises_iff "ID" 12 "0xf".toList 0 (by decide)⟩

/-- C6: the construction invariant, proved of the modelled constructor
`Field.make` (the constructor in the source cannot run — see the doc
comment on `Field.make`): it allocates exactly `length` symbols, each with
logic level 0 and duration 0, and a parse never changes the symbol count. -/
theorem C6_construction_and_parse_preserve_count (name : String) (L : ℕ)
    (data : List Char) (off : ℕ) :
    (Field.make name L).symbols = List.replicate L ⟨0, 0⟩ ∧
    (((Field.make name L).parse_user_data data off).getD
        (Field.make name L)).symbols.length = L := by
  refine ⟨rfl, ?_⟩
  unfold Field.parse_user_data
  cases h : pyIntHex ((data.drop off).take (Field.make name L).num_chars) with
  | none => simp [Field.make]
  | some v => simp [Field.make, setBitsAux_length]

/-- C7: the probe-configuration table. CAN_H yields voltages (3.5, 2.5),
CAN_L yields (2.5, 1.5), DIFFERENTIAL yields (1, 1) (computed by the source
as 3.5 − 2.5 and 2.5 − 1.5); a value outside the enumerated set fails; the
frequency is fixed at 250000 Hz and the period is 4 µs. -/
theorem C7_probe_configuration_table :
    (J1939.make J1939ProbeInput.CAN_H).map
        (fun p => (p.high_logic_voltage, p.low_logic_voltage))
      = some (3.5, 2.5) ∧
    (J1939.make J1939ProbeInput.CAN_L).map
        (fun p => (p.high_logic_voltage, p.low_logic_voltage))
      = some (2.5, 1.5) ∧
    (J1939.make J1939ProbeInput.DIFFERENTIAL).map
        (fun p => (p.high_logic_voltage, p.low_logic_voltage))
      = some (1, 1) ∧
    J1939.make J1939ProbeInput.other = none ∧
    (J1939.make J1939ProbeInput.CAN_H).map Protocol.frequency
      = some 250000 ∧
    (J1939.make J1939ProbeInput.CAN_H).map Protocol.period
      = some (4 / 1000000) := by
  norm_num [J1939.make, Protocol.make]

/-- C8: the standard J1939 layout does have `total_bits = 47`, and on a
12-character hex string with probe CAN_H the waveform has 47 points with
voltages drawn from {2.5, 3.5} (they are all 2.5, the data being ignored);
but the time points are all 0 — not strictly increasing by the period
4 µs — because durations are never assigned. -/
theorem C8_end_to_end_waveform_time_is_flat :
    J1939Frame.total_bits = 47 ∧
    (j1939CanH.generate_waveform "0123456789ab".toList).voltage_points =
        List.replicate 47 (2.5 : ℚ) ∧
    (j1939CanH.generate_waveform "0123456789ab".toList).time_points =
        List.replicate 47 (0 : ℚ) ∧
    j1939CanH.period = 4 / 1000000 := by
  refine ⟨by decide, rfl, ?_, ?_⟩
  · exact waveLoop_fst_of_durations_zero _ _ 0 47 (by decide)
  · norm_num [j1939CanH, J1939.make, Protocol.make]

/-- C9 counterexample: the claim says construction fails if and only if
`frequency ≤ 0`. The constructor performs no validation: at frequency −1
(which is ≤ 0) it succeeds, storing `period = 1 / (−1) = −1`. -/
theorem C9_negative_frequency_is_accepted :
    (Protocol.make (-1) (7/2) (5/2) J1939Frame).isSome = true ∧
    (Protocol.make (-1) (7/2) (5/2) J1939Frame).map Protocol.period
      = some (-1) := by
  constructor
  · decide
  · norm_num [Protocol.make]

/-- C9 amended: construction sets `period = 1 / frequency` and fails (with
the ZeroDivisionError of `1.0 / frequency`) exactly when `frequency = 0`;
every nonzero frequency — negative ones included — is accepted. -/
theorem C9_amended_fails_iff_zero (freq high low : ℚ) (fr : Frame) :
    (Protocol.make freq high low fr = none ↔ freq = 0) ∧
    (Protocol.make freq high low fr).map Protocol.period =
      (if freq = 0 then none else some (1 / freq)) := by
  unfold Protocol.make
  by_cases h : freq = 0 <;> simp [h]

/-- C10: `generate_waveform` never reads its `data` argument — the output
is determined entirely by the logic levels and durations already stored in
the frame, so any two calls on the same protocol state return identical
waveforms. -/
theorem C10_output_independent_of_data (p : Protocol) (d1 d2 : List Char) :
    p.generate_waveform d1 = p.generate_waveform d2 := rfl

end WaveformVis
